import Mathlib

/-!
Verification of the qa/test helper code of this repository against its
natural-language specification.  Python strings are modelled as `List Char`
(wrapped in `String` at the interfaces), machine integers as `Int`, and
fallible code as `Option`/`Except`-style results.  Every definition is a
direct shallow embedding of the corresponding Python function.
-/

namespace CephSpec

/-! ### Python string primitives (modelled on `List Char`) -/

/-- Python `s.find(pat)` / `s.index(pat)`: index of the first occurrence of
`pat` in `s`, `none` when absent (Python returns `-1` / raises).  Matches
Python: the empty pattern occurs at index 0. -/
def strFind : List Char → List Char → Option Nat
  | [], pat => if pat.isPrefixOf ([] : List Char) then some 0 else none
  | c :: t, pat =>
    if pat.isPrefixOf (c :: t) then some 0 else (strFind t pat).map (· + 1)

/-- Python slice `s[a:b]` for `0 ≤ a, b`: clamps at the ends, empty when
`a ≥ b`. -/
def pySlice (s : List Char) (a b : Nat) : List Char := (s.drop a).take (b - a)

/-- Python `s.replace(old, '')`: removes every occurrence of `old`, scanning
left to right.  Fuel-indexed structural recursion; every step with a nonempty
pattern consumes at least one character of `s`, so fuel `s.length` is enough.
For the empty pattern Python's `s.replace('', '')` returns `s` unchanged,
which the else-branch reproduces. -/
def replaceAllAux (pat : List Char) : Nat → List Char → List Char
  | 0, s => s
  | fuel + 1, s =>
    if pat ≠ [] ∧ pat.isPrefixOf s then replaceAllAux pat fuel (s.drop pat.length)
    else
      match s with
      | [] => []
      | c :: t => c :: replaceAllAux pat fuel t

/-- Python `s.replace(pat, '')`. -/
def pyReplaceEmpty (s pat : List Char) : List Char := replaceAllAux pat s.length s

/-- The literal marker `fsname=` used by `CapTester._get_fsnames_from_moncap`. -/
def fsnameMarker : List Char := "fsname=".data

/-- Embeds the `while moncap.find('fsname=') != -1` loop of
`CapTester._get_fsnames_from_moncap` (qa/tasks/cephfs/caps_helper.py).
Each iteration:
  * `fsname_first_char = moncap.index('fsname=') + len('fsname=')`;
  * if `','` occurs anywhere in `moncap`, `last = moncap.index(',')`
    (note: the first comma of the whole remaining string, not the first
    comma after the marker), `fsname = moncap[fsname_first_char:last]`, and
    `moncap = moncap.replace(moncap[0:last+1], '')`;
  * otherwise `fsname = moncap[fsname_first_char:]` and
    `moncap = moncap.replace(moncap[0:], '')` (the empty string);
  * the token is appended to the result.
The remaining string strictly shrinks every iteration, so fuel
`length + 1` is enough. -/
def getFsnamesLoop : Nat → List Char → List (List Char)
  | 0, _ => []
  | fuel + 1, moncap =>
    match strFind moncap fsnameMarker with
    | none => []
    | some i =>
      let fsname_first_char := i + fsnameMarker.length
      match strFind moncap [','] with
      | some last =>
        let fsname := pySlice moncap fsname_first_char last
        let moncap2 := pyReplaceEmpty moncap (pySlice moncap 0 (last + 1))
        fsname :: getFsnamesLoop fuel moncap2
      | none =>
        let fsname := moncap.drop fsname_first_char
        let moncap2 := pyReplaceEmpty moncap (moncap.drop 0)
        fsname :: getFsnamesLoop fuel moncap2

/-- `CapTester._get_fsnames_from_moncap`, on `String`. -/
def get_fsnames_from_moncap (moncap : String) : List String :=
  (getFsnamesLoop (moncap.data.length + 1) moncap.data).map (fun l => String.mk l)

/-! ### check_counter.py: CheckCounter.end -/

/-- A perf-counter value as returned by the admin socket `perf dump`:
a JSON tree of nested objects with numeric leaves. -/
inductive PerfVal where
  | num (v : Int)
  | obj (fields : List (String × PerfVal))

/-- Lookup of a key in a JSON object, first binding wins
(Python dict has unique keys; the embedding keeps the first). -/
def lookupKey : List (String × PerfVal) → String → Option PerfVal
  | [], _ => none
  | (k, v) :: rest, key => if k = key then some v else lookupKey rest key

/-- The `for key in name.split('.')` walk of `CheckCounter.end`: descend
through nested dicts; a missing key yields `None` (`val = None; break`).
Descending into a non-dict would raise a TypeError in Python; the claims
never exercise that path and it is modelled as `none`. -/
def perfWalk : PerfVal → List String → Option PerfVal
  | v, [] => some v
  | .num _, _ :: _ => none
  | .obj fields, k :: ks =>
    match lookupKey fields k with
    | none => none
    | some v => perfWalk v ks

/-- The value finally compared with `minval`: the walk must end on a number
(comparing a dict with an int would raise in Python; not exercised here). -/
def lookupCounter (pd : PerfVal) (name : String) : Option Int :=
  match perfWalk pd (name.splitOn (".")) with
  | some (.num v) => some v
  | _ => none

/-- One entry of the `counters` list for a daemon type: either a bare name
string or a record carrying a name and a min field. -/
inductive CounterSpec where
  | bare (name : String)
  | record (name : String) (minval : Int)

/-- The `name` taken from a counter specification. -/
def csName : CounterSpec → String
  | .bare n => n
  | .record n _ => n

/-- The threshold: the min field for a record, `1` for a bare name. -/
def csMin : CounterSpec → Int
  | .bare _ => 1
  | .record _ m => m

/-- A daemon instance of the current type: whether `daemon.running()` holds
and the admin-socket `perf dump` response (`none` models an empty
`response_data`, which the code skips with a warning). -/
structure DaemonT where
  running : Bool
  response : Option PerfVal

/-- Membership-preserving set insert: Python `set.add`. -/
def addName (l : List String) (n : String) : List String :=
  if n ∈ l then l else l ++ [n]

/-- The body of `for counter in counters:` for one responding daemon:
`expected.add(name)` always; `seen.add(name)` when the counter is found and
`val >= minval`.  The accumulator is `(expected, seen)`. -/
def stepCounter (pd : PerfVal) (es : List String × List String)
    (c : CounterSpec) : List String × List String :=
  let e := addName es.1 (csName c)
  let s :=
    match lookupCounter pd (csName c) with
    | some v => if csMin c ≤ v then addName es.2 (csName c) else es.2
    | none => es.2
  (e, s)

/-- The `for counter in counters` loop over a single responding daemon. -/
def runCounters (pd : PerfVal) : List CounterSpec →
    List String × List String → List String × List String
  | [], es => es
  | c :: cs, es => runCounters pd cs (stepCounter pd es c)

/-- The `for daemon_id, daemon in daemons.items()` loop: daemons that are
not running, or whose admin-socket response is empty, are skipped. -/
def runDaemons (counters : List CounterSpec) : List DaemonT →
    List String × List String → List String × List String
  | [], es => es
  | d :: ds, es =>
    let es2 :=
      if d.running then
        match d.response with
        | some pd => runCounters pd counters es
        | none => es
      else es
    runDaemons counters ds es2

/-- `(expected, seen)` after all instances of one daemon type are
processed, starting from the empty sets. -/
def processType (counters : List CounterSpec) (daemons : List DaemonT) :
    List String × List String :=
  runDaemons counters daemons ([], [])

/-- `unseen = set(expected) - set(seen)`. -/
def unseenOf (es : List String × List String) : List String :=
  es.1.filter (fun n => decide (n ∉ es.2))

/-- Whether `CheckCounter.end` raises `RuntimeError` for this daemon type:
only with `dry_run` false and `unseen` nonempty. -/
def endRaises (dry_run : Bool) (counters : List CounterSpec)
    (daemons : List DaemonT) : Bool :=
  if dry_run then false
  else !(unseenOf (processType counters daemons)).isEmpty

/-- The slice of the task config the claims need:
`dry_run = self.config.get('dry_run', False)`. -/
structure CCConfig where
  dry_run : Option Bool

/-- `self.config.get('dry_run', False)`. -/
def effectiveDryRun (cfg : CCConfig) : Bool := cfg.dry_run.getD false

/-- `CheckCounter.end` for one daemon type, reading the flag from the
config. -/
def endRaisesCfg (cfg : CCConfig) (counters : List CounterSpec)
    (daemons : List DaemonT) : Bool :=
  endRaises (effectiveDryRun cfg) counters daemons

/-- Whether one responding daemon's perf dump satisfies one counter
specification: the counter is present and its value is `>= minval`. -/
def counterSatisfied (pd : PerfVal) (c : CounterSpec) : Bool :=
  match lookupCounter pd (csName c) with
  | some v => csMin c ≤ v
  | none => false

/-! ### caps_helper.py: run_mds_cap_tests and write_test_files -/

/-- One entry of `self.test_set`: the file path and the data written there
(the mount object adds nothing the claims need). -/
structure TestTuple where
  path : String
  data : String

/-- The checks conducted by `CapTester`: `conduct_pos_test_for_read_caps`
reads the file and compares the data, `conduct_pos_test_for_write_caps`
writes and re-reads it, `conduct_neg_test_for_write_caps` expects the write
to fail. -/
inductive MdsCheck where
  | posRead (path data : String)
  | posWrite (path data : String)
  | negWrite (path : String)

/-- `y.replace(mntpt, '')` applied to a tuple's path (run_mds_cap_tests'
rewrite of `self.test_set` when `mntpt` is truthy). -/
def rewriteTuple (mntpt : String) (t : TestTuple) : TestTuple :=
  ⟨String.mk (pyReplaceEmpty t.path.data mntpt.data), t.data⟩

/-- The effective test set of `run_mds_cap_tests`: rewritten only when
`mntpt` is truthy (Python `if mntpt:` — `None` and the empty string are
falsy). -/
def effectiveTestSet (test_set : List TestTuple) (mntpt : Option String) :
    List TestTuple :=
  match mntpt with
  | none => test_set
  | some m => if m = "" then test_set else test_set.map (rewriteTuple m)

/-- The fatal message of `run_mds_cap_tests` for a `perm` that is neither
`rw` nor `r`. -/
def permErrMsg (perm : String) : String :=
  "perm = " ++ perm ++ "\nIt should be \"r\" or \"rw\"."

/-- Embeds `CapTester.run_mds_cap_tests` (qa/tasks/cephfs/caps_helper.py):
the rewritten test set is read-checked tuple by tuple; then `perm == 'rw'`
adds the positive write checks, `perm == 'r'` the negative write checks,
and anything else raises `RuntimeError` (returned as `some` message) after
the read checks already ran. -/
def run_mds_cap_tests (test_set : List TestTuple) (perm : String)
    (mntpt : Option String) : List MdsCheck × Option String :=
  let ts := effectiveTestSet test_set mntpt
  let readChecks := ts.map (fun t => MdsCheck.posRead t.path t.data)
  if perm = "rw" then
    (readChecks ++ ts.map (fun t => MdsCheck.posWrite t.path t.data), none)
  else if perm = "r" then
    (readChecks ++ ts.map (fun t => MdsCheck.negWrite t.path), none)
  else
    (readChecks, some (permErrMsg perm))

/-- The sub-path normalization of `CapTester.write_test_files`:
`testpath = testpath[1:] if testpath[0] == '/' else testpath` (only when
nonempty), then `if testpath == '/': testpath = ''`. -/
def normalize_testpath (tp : List Char) : List Char :=
  let t :=
    match tp with
    | [] => []
    | c :: rest => if c = '/' then rest else c :: rest
  if t = ['/'] then [] else t

/-- Python `os.path.join(a, b)` on POSIX: an absolute second component
discards the first; otherwise a separator is inserted unless the first is
empty or already ends with one. -/
def os_path_join2 (a b : List Char) : List Char :=
  if b.head? = some '/' then b
  else if a = [] ∨ a.getLast? = some '/' then a ++ b
  else a ++ '/' :: b

/-- `os.path.join(a, b, c)`: left fold of the two-argument join. -/
def os_path_join3 (a b c : List Char) : List Char :=
  os_path_join2 (os_path_join2 a b) c

/-- The `dirpath` computed by `write_test_files` for one mount:
`os_path_join(mount_x.hostfs_mntpt, testpath, dirname)` with
`dirname = 'testdir'` and `testpath` already normalized. -/
def write_test_files_dirpath (hostfs_mntpt testpath : List Char) : List Char :=
  os_path_join3 hostfs_mntpt (normalize_testpath testpath) "testdir".data

/-! ### test_rgw_reshard.py -/

/-- Linux errno values used by the reshard workunit. -/
def EBUSY : Int := 16

/-- Linux `errno.EEXIST`. -/
def EEXIST : Int := 17

/-- Linux `errno.ECANCELED`. -/
def ECANCELED : Int := 125

/-- The observable actions of `test_bucket_reshard`, in order: the
fault-injected reshard command, a `get_bucket_stats` shard-count check, the
single object delete, an ACL-grants comparison, the retries without fault
injection, and the 30-second sleeps of the retry loop. -/
inductive RAct where
  | reshardFault (ret : Int)
  | statShards
  | deleteObj
  | aclCheck
  | reshardRetry (ret : Int)
  | sleep30

/-- How an execution of `test_bucket_reshard` ends: all assertions passed,
an `assert` statement failed (tagged by site), a non-assert exception was
raised (the object delete), or the retry loop is still waiting for more
command results than the environment supplied. -/
inductive ROutcome where
  | passed
  | assertFailed (site : String)
  | errored (site : String)
  | waiting

/-- The environment of one `test_bucket_reshard` run: everything the
external commands and the S3 endpoint answer.  `error_code` is
`fault.get('error_code')`; `faultRet` the exit status of the fault-injected
reshard; `shardsAfterFault` the shard count read after that attempt;
`deleteOk` whether the single object delete succeeds; `grantsAfterCancel`
the ACL grants re-read after the cancelled attempt; `retryRets` the exit
statuses of the successive retries without fault injection;
`finalShards` and `grantsAfterCommit` what the final checks read. -/
structure REnv where
  error_code : Option Int
  faultRet : Int
  shardsAfterFault : Int
  deleteOk : Bool
  grantsAfterCancel : List String
  retryRets : List Int
  finalShards : Int
  grantsAfterCommit : List String

/-- The `while True:` retry loop of `test_bucket_reshard`: run the reshard
without fault injection; on `EBUSY` log, sleep 30 seconds and retry;
otherwise `assert(ret == 0)` and break.  Returns the performed actions and
`some true` (proceed to the final checks), `some false` (the assert
failed), or `none` (result list exhausted while the loop still runs). -/
def retry_reshard : List Int → List RAct × Option Bool
  | [] => ([], none)
  | r :: rest =>
    if r = EBUSY then
      let p := retry_reshard rest
      (RAct.reshardRetry r :: RAct.sleep30 :: p.1, p.2)
    else if r = 0 then ([RAct.reshardRetry r], some true)
    else ([RAct.reshardRetry r], some false)

/-- The final checks of `test_bucket_reshard`: re-read the shard count and
`assert(final_shard_count == num_shards_expected)`, then compare the ACL
grants with the ones recorded at bucket creation. -/
def finalChecks (env : REnv) (target : Int) (grants : List String) :
    List RAct × ROutcome :=
  if env.finalShards = target then
    if env.grantsAfterCommit = grants then
      ([RAct.statShards, RAct.aclCheck], ROutcome.passed)
    else ([RAct.statShards, RAct.aclCheck], ROutcome.assertFailed ("grants-commit"))
  else ([RAct.statShards], ROutcome.assertFailed ("final-shards"))

/-- Embeds `test_bucket_reshard` (qa/workunits/rgw/test_rgw_reshard.py)
from the fault-injected attempt on, with `old` the shard count recorded
before the attempt and `grants` the ACL grants recorded at bucket creation
(`num_shards_expected = old_shard_count + 1`):

* `fault.get('error_code') == errno.ECANCELED`: `assert(ret == 0)` and fall
  through to the final checks — no retry;
* otherwise `assert(ret != 0 and ret != errno.EBUSY)`, then
  `assert(cur_shard_count == old_shard_count)`, then delete one object
  (an exception there propagates), then `assert grants == bucket.Acl().grants`,
  then the retry loop, then the final checks. -/
def test_bucket_reshard (env : REnv) (old : Int) (grants : List String) :
    List RAct × ROutcome :=
  let target := old + 1
  if env.error_code = some ECANCELED then
    if env.faultRet = 0 then
      let f := finalChecks env target grants
      (RAct.reshardFault env.faultRet :: f.1, f.2)
    else ([RAct.reshardFault env.faultRet], ROutcome.assertFailed ("ecanceled-ret"))
  else
    if env.faultRet ≠ 0 ∧ env.faultRet ≠ EBUSY then
      if env.shardsAfterFault = old then
        if env.deleteOk then
          if env.grantsAfterCancel = grants then
            let p := retry_reshard env.retryRets
            match p.2 with
            | some true =>
              let f := finalChecks env target grants
              (RAct.reshardFault env.faultRet :: RAct.statShards ::
                RAct.deleteObj :: RAct.aclCheck :: (p.1 ++ f.1), f.2)
            | some false =>
              (RAct.reshardFault env.faultRet :: RAct.statShards ::
                RAct.deleteObj :: RAct.aclCheck :: p.1,
               ROutcome.assertFailed ("retry-ret"))
            | none =>
              (RAct.reshardFault env.faultRet :: RAct.statShards ::
                RAct.deleteObj :: RAct.aclCheck :: p.1, ROutcome.waiting)
          else
            ([RAct.reshardFault env.faultRet, RAct.statShards,
              RAct.deleteObj, RAct.aclCheck],
             ROutcome.assertFailed ("grants-cancel"))
        else
          ([RAct.reshardFault env.faultRet, RAct.statShards, RAct.deleteObj],
           ROutcome.errored ("delete"))
      else
        ([RAct.reshardFault env.faultRet, RAct.statShards],
         ROutcome.assertFailed ("shard-count"))
    else ([RAct.reshardFault env.faultRet], ROutcome.assertFailed ("fault-ret"))

/-- A Python value as far as `main`'s user-create assertion needs it. -/
inductive PyVal where
  | bool (b : Bool)
  | int (n : Int)

/-- Python truthiness for the values above. -/
def pyTruthy : PyVal → Bool
  | .bool b => b
  | .int n => decide (n ≠ 0)

/-- Python `a or b`: the first operand when truthy, else the second. -/
def pyOr (a b : PyVal) : PyVal := if pyTruthy a then a else b

/-- Embeds the user-creation step of `main`:
`assert(ret == 0 or errno.EEXIST)` passes iff the value of the expression
`(ret == 0) or errno.EEXIST` is truthy. -/
def user_create_assert_passes (ret : Int) : Bool :=
  pyTruthy (pyOr (PyVal.bool (decide (ret = 0))) (PyVal.int EEXIST))

/-! ### src/cephadm/tests/fixtures.py: mock_bad_firewalld -/

/-- The three patched operations of the firewalld stand-in: each is a
thunk whose call result is modelled as `Except` — `raise_bad_firewalld`
always raises `Exception('Called bad firewalld')`. -/
structure MockFirewalld where
  enable_service_for : Unit → Except String Unit
  apply_rules : Unit → Except String Unit
  open_ports : Unit → Except String Unit

/-- The inner `raise_bad_firewalld` helper. -/
def raise_bad_firewalld : Except String Unit :=
  Except.error ("Called bad firewalld")

/-- The object `f` built inside `mock_bad_firewalld`: a `Mock(Firewalld)`
whose `enable_service_for`, `apply_rules` and `open_ports` are replaced by
lambdas that call `raise_bad_firewalld`. -/
def bad_firewalld_stand_in : MockFirewalld where
  enable_service_for := fun _ => raise_bad_firewalld
  apply_rules := fun _ => raise_bad_firewalld
  open_ports := fun _ => raise_bad_firewalld

/-- Embeds `mock_bad_firewalld` (src/cephadm/tests/fixtures.py): the
function builds `f` but has no `return` statement, so the call falls off
the end and evaluates to `None`. -/
def mock_bad_firewalld : Option MockFirewalld :=
  let _f := bad_firewalld_stand_in
  none

/-- C1 (counterexample): the administrative-capability string
`allow r, allow rw fsname=A,fsname=B` contains the tokens
`fsname=A,fsname=B`, with text including a comma preceding the first
marker; the extraction step returns `["", "A", "B"]` — an extra empty
token — not `["A", "B"]`: the token is cut at the first comma of the whole
remaining string, which here lies before the marker. -/
theorem capTester_fsnames_counterexample :
    get_fsnames_from_moncap ("allow r, allow rw fsname=A,fsname=B")
      = ["", "A", "B"]
    ∧ get_fsnames_from_moncap ("allow r, allow rw fsname=A,fsname=B")
      ≠ ["A", "B"] := by
  constructor
  · decide
  · decide

/-- Helper for C1: a pattern that is a prefix is found at index 0. -/
theorem strFind_of_isPrefixOf {s pat : List Char} (h : pat.isPrefixOf s = true) :
    strFind s pat = some 0 := by
  cases s with
  | nil => rw [strFind, if_pos h]
  | cons c t => rw [strFind, if_pos h]

/-- Helper for C1: the first comma of `xs ++ , :: ys` with comma-free `xs` sits at index `xs.length`. -/
theorem strFind_comma_append :
    ∀ (xs ys : List Char), ',' ∉ xs →
    strFind (xs ++ ',' :: ys) [','] = some xs.length := by
  intro xs
  induction xs with
  | nil =>
    intro ys _
    rw [List.nil_append]
    exact strFind_of_isPrefixOf
      (List.isPrefixOf_iff_prefix.mpr ⟨ys, by rw [List.singleton_append]⟩)
  | cons x xs ih =>
    intro ys hx
    have hxc : ¬ ([','].isPrefixOf (x :: (xs ++ ',' :: ys)) = true) := by
      rw [List.isPrefixOf_iff_prefix]
      rintro ⟨t, ht⟩
      rw [List.singleton_append] at ht
      injection ht with h1 _
      exact hx (h1 ▸ List.mem_cons_self _ _)
    rw [List.cons_append, strFind, if_neg hxc,
      ih ys (fun hm => hx (List.mem_cons_of_mem _ hm))]
    rfl

/-- Helper for C1: a comma-free string has no comma to find. -/
theorem strFind_comma_none :
    ∀ s : List Char, ',' ∉ s → strFind s [','] = none := by
  intro s
  induction s with
  | nil => intro _; rw [strFind]; rfl
  | cons c t ih =>
    intro hs
    have hxc : ¬ ([','].isPrefixOf (c :: t) = true) := by
      rw [List.isPrefixOf_iff_prefix]
      rintro ⟨u, hu⟩
      rw [List.singleton_append] at hu
      injection hu with h1 _
      exact hs (h1 ▸ List.mem_cons_self _ _)
    rw [strFind, if_neg hxc, ih (fun hm => hs (List.mem_cons_of_mem _ hm))]
    rfl

/-- Helper for C1: a pattern containing a comma never occurs in a comma-free string, so the removal scan leaves it unchanged. -/
theorem replaceAllAux_not_mem {pat : List Char} (hpat : ',' ∈ pat) :
    ∀ (fuel : Nat) (s : List Char), ',' ∉ s → replaceAllAux pat fuel s = s := by
  intro fuel
  induction fuel with
  | zero => intro s _; rfl
  | succ n ih =>
    intro s hs
    have hneg : ¬ (pat ≠ [] ∧ pat.isPrefixOf s = true) := by
      rintro ⟨-, h2⟩
      exact hs (List.Sublist.mem hpat (List.isPrefixOf_iff_prefix.mp h2).sublist)
    cases s with
    | nil => rw [replaceAllAux, if_neg hneg]
    | cons c t =>
      rw [replaceAllAux, if_neg hneg]
      show c :: replaceAllAux pat n t = c :: t
      rw [ih t (fun hm => hs (List.mem_cons_of_mem _ hm))]

/-- Helper for C1: one unfolding step of the removal scan. -/
theorem replaceAllAux_succ (pat : List Char) (n : Nat) (s : List Char) :
    replaceAllAux pat (n + 1) s
      = if pat ≠ [] ∧ pat.isPrefixOf s then
          replaceAllAux pat n (s.drop pat.length)
        else
          match s with
          | [] => []
          | c :: t => c :: replaceAllAux pat n t := rfl

/-- Helper for C1: removing from the empty string yields the empty string. -/
theorem replaceAllAux_nil (pat : List Char) :
    ∀ fuel : Nat, replaceAllAux pat fuel [] = [] := by
  intro fuel
  cases fuel with
  | zero => rfl
  | succ n =>
    rw [replaceAllAux, if_neg]
    rintro ⟨h1, h2⟩
    exact h1 (List.prefix_nil.mp (List.isPrefixOf_iff_prefix.mp h2))

/-- Helper for C1: replacing the whole string by the empty string empties it. -/
theorem pyReplaceEmpty_self {s : List Char} (hs : s ≠ []) :
    pyReplaceEmpty s s = [] := by
  rw [pyReplaceEmpty]
  cases hl : s.length with
  | zero => exact absurd (List.length_eq_zero.mp hl) hs
  | succ n =>
    rw [replaceAllAux_succ,
      if_pos ⟨hs, List.isPrefixOf_iff_prefix.mpr (List.prefix_refl s)⟩,
      List.drop_length]
    exact replaceAllAux_nil s n

/-- Helper for C1: the extraction loop stops on the empty string. -/
theorem getFsnamesLoop_nil : ∀ fuel : Nat, getFsnamesLoop fuel [] = [] := by
  intro fuel
  cases fuel with
  | zero => rfl
  | succ n =>
    rw [getFsnamesLoop,
      show strFind [] fsnameMarker = none from by decide]

/-- Helper for C1: on `fsname=` followed by a comma-free name the loop emits that name and stops. -/
theorem getFsnamesLoop_marker_noComma (B : List Char) (hB : ',' ∉ B) (n : Nat) :
    getFsnamesLoop (n + 1) (fsnameMarker ++ B) = [B] := by
  have hfind : strFind (fsnameMarker ++ B) fsnameMarker = some 0 :=
    strFind_of_isPrefixOf
      (List.isPrefixOf_iff_prefix.mpr (List.prefix_append _ _))
  have hcomma : strFind (fsnameMarker ++ B) [','] = none := by
    apply strFind_comma_none
    intro hm
    rcases List.mem_append.mp hm with h | h
    · exact absurd h (by decide)
    · exact hB h
  rw [getFsnamesLoop, hfind, hcomma]
  show (fsnameMarker ++ B).drop (0 + fsnameMarker.length)
      :: getFsnamesLoop n
          (pyReplaceEmpty (fsnameMarker ++ B) ((fsnameMarker ++ B).drop 0))
      = [B]
  rw [List.drop_zero, Nat.zero_add, List.drop_left,
    pyReplaceEmpty_self (by simp [fsnameMarker]), getFsnamesLoop_nil]

/-- Helper for C1: the extraction loop on the canonical two-name capability string `fsname=A,fsname=B` (comma-free names) returns exactly the two names, for any sufficient fuel. -/
theorem getFsnames_two_names (A B : List Char) (hA : ',' ∉ A) (hB : ',' ∉ B) :
    ∀ m : Nat,
    getFsnamesLoop (m + 2) (fsnameMarker ++ (A ++ ',' :: (fsnameMarker ++ B)))
      = [A, B] := by
  intro m
  have hassoc :
      fsnameMarker ++ (A ++ ',' :: (fsnameMarker ++ B))
        = (fsnameMarker ++ A) ++ ',' :: (fsnameMarker ++ B) :=
    (List.append_assoc _ _ _).symm
  have hxA : ',' ∉ fsnameMarker ++ A := by
    intro hm
    rcases List.mem_append.mp hm with h | h
    · exact absurd h (by decide)
    · exact hA h
  have hfind :
      strFind (fsnameMarker ++ (A ++ ',' :: (fsnameMarker ++ B))) fsnameMarker
        = some 0 :=
    strFind_of_isPrefixOf
      (List.isPrefixOf_iff_prefix.mpr (List.prefix_append _ _))
  have hcomma :
      strFind (fsnameMarker ++ (A ++ ',' :: (fsnameMarker ++ B))) [',']
        = some (fsnameMarker ++ A).length := by
    rw [hassoc]
    exact strFind_comma_append (fsnameMarker ++ A) _ hxA
  rw [getFsnamesLoop, hfind, hcomma]
  show pySlice (fsnameMarker ++ (A ++ ',' :: (fsnameMarker ++ B)))
        (0 + fsnameMarker.length) (fsnameMarker ++ A).length
      :: getFsnamesLoop (m + 1)
          (pyReplaceEmpty (fsnameMarker ++ (A ++ ',' :: (fsnameMarker ++ B)))
            (pySlice (fsnameMarker ++ (A ++ ',' :: (fsnameMarker ++ B))) 0
              ((fsnameMarker ++ A).length + 1)))
      = [A, B]
  have hs1 : pySlice (fsnameMarker ++ (A ++ ',' :: (fsnameMarker ++ B)))
      (0 + fsnameMarker.length) (fsnameMarker ++ A).length = A := by
    rw [pySlice, Nat.zero_add, List.drop_left, List.length_append,
      Nat.add_sub_cancel_left]
    exact List.take_left _ _
  have hsplit :
      fsnameMarker ++ (A ++ ',' :: (fsnameMarker ++ B))
        = ((fsnameMarker ++ A) ++ [',']) ++ (fsnameMarker ++ B) := by
    simp [List.append_assoc]
  have hp1 : pySlice (fsnameMarker ++ (A ++ ',' :: (fsnameMarker ++ B))) 0
      ((fsnameMarker ++ A).length + 1) = (fsnameMarker ++ A) ++ [','] := by
    rw [pySlice, List.drop_zero, Nat.sub_zero, hsplit,
      show (fsnameMarker ++ A).length + 1 = ((fsnameMarker ++ A) ++ [',']).length
        from by simp [List.length_append]; omega,
      List.take_left]
  have hrep :
      pyReplaceEmpty (fsnameMarker ++ (A ++ ',' :: (fsnameMarker ++ B)))
        ((fsnameMarker ++ A) ++ [',']) = fsnameMarker ++ B := by
    rw [pyReplaceEmpty]
    cases hl : (fsnameMarker ++ (A ++ ',' :: (fsnameMarker ++ B))).length with
    | zero =>
      exact absurd (List.length_eq_zero.mp hl) (by simp [fsnameMarker])
    | succ n2 =>
      rw [replaceAllAux_succ,
        if_pos ⟨by simp, by
          rw [List.isPrefixOf_iff_prefix, hsplit]
          exact List.prefix_append _ _⟩]
      rw [show (fsnameMarker ++ (A ++ ',' :: (fsnameMarker ++ B))).drop
            ((fsnameMarker ++ A) ++ [',']).length = fsnameMarker ++ B from by
          rw [hsplit, List.drop_left]]
      exact replaceAllAux_not_mem
        (List.mem_append_right _ (List.mem_singleton.mpr rfl)) n2 _
        (by
          intro hm
          rcases List.mem_append.mp hm with h | h
          · exact absurd h (by decide)
          · exact hB h)
  rw [hs1, hp1, hrep, getFsnamesLoop_marker_noComma B hB m]

/-- C1 (amended): each extracted token is cut at the first comma of the
whole remaining capability string (not the first comma after its marker),
and the consumed prefix is removed at every occurrence, so the extraction
does not in general return one token per `fsname=` marker occurrence; what
holds universally: for all names `a` and `b` free of commas, the
capability string `fsname=` ++ a ++ `,fsname=` ++ b yields exactly
`[a, b]`.  A comma preceding the first marker contributes an extra empty
token, and a later re-occurrence of the consumed prefix swallows markers:
`fsname=A,Xfsname=A,B` has two marker occurrences yet yields `["A"]`. -/
theorem capTester_fsnames_amended :
    (∀ a b : String, ',' ∉ a.data → ',' ∉ b.data →
      get_fsnames_from_moncap ("fsname=" ++ a ++ "," ++ "fsname=" ++ b)
        = [a, b])
    ∧ get_fsnames_from_moncap ("fsname=A,Xfsname=A,B") = ["A"] := by
  constructor
  · intro a b hA hB
    have hdata : ("fsname=" ++ a ++ "," ++ "fsname=" ++ b).data
        = fsnameMarker ++ (a.data ++ ',' :: (fsnameMarker ++ b.data)) := by
      simp [String.data_append, fsnameMarker, List.append_assoc]
    rw [get_fsnames_from_moncap, hdata]
    have h7 : fsnameMarker.length = 7 := rfl
    have hfuel :
        (fsnameMarker ++ (a.data ++ ',' :: (fsnameMarker ++ b.data))).length + 1
          = (a.data.length + b.data.length + 14) + 2 := by
      simp [List.length_append, h7]
      omega
    rw [hfuel, getFsnames_two_names a.data b.data hA hB _]
    rfl
  · decide


/-- C1 witness: the two-name theorem instantiated at the names `A` and
`B`, whose comma-freedom is discharged by computation. -/
theorem capTester_fsnames_amended_witness :
    get_fsnames_from_moncap ("fsname=" ++ "A" ++ "," ++ "fsname=" ++ "B")
      = ["A", "B"] :=
  capTester_fsnames_amended.1 "A" "B" (by decide) (by decide)

theorem mem_addName {l : List String} {n m : String} :
    n ∈ addName l m ↔ n ∈ l ∨ n = m := by
  unfold addName
  split_ifs with h
  · exact ⟨Or.inl, fun h2 => h2.elim id (fun e => e ▸ h)⟩
  · simp [List.mem_append]

theorem stepCounter_snd_mem {pd : PerfVal} {es : List String × List String}
    {c : CounterSpec} {n : String} :
    n ∈ (stepCounter pd es c).2 ↔
      n ∈ es.2 ∨ (csName c = n ∧ counterSatisfied pd c = true) := by
  unfold stepCounter counterSatisfied
  cases h : lookupCounter pd (csName c) with
  | none => simp [h]
  | some v =>
    by_cases hm : csMin c ≤ v
    · simp only [h, if_pos hm, mem_addName, decide_eq_true_eq]
      constructor
      · rintro (hn | hn)
        · exact Or.inl hn
        · exact Or.inr ⟨hn.symm, hm⟩
      · rintro (hn | ⟨hn, _⟩)
        · exact Or.inl hn
        · exact Or.inr hn.symm
    · simp only [h, if_neg hm, decide_eq_true_eq]
      constructor
      · exact Or.inl
      · rintro (hn | ⟨_, hm2⟩)
        · exact hn
        · exact absurd hm2 hm

theorem stepCounter_fst_mem {pd : PerfVal} {es : List String × List String}
    {c : CounterSpec} {n : String} :
    n ∈ (stepCounter pd es c).1 ↔ n ∈ es.1 ∨ n = csName c := by
  unfold stepCounter
  exact mem_addName

theorem runCounters_snd_mem {pd : PerfVal} :
    ∀ (cs : List CounterSpec) (es : List String × List String) (n : String),
    n ∈ (runCounters pd cs es).2 ↔
      n ∈ es.2 ∨ ∃ c ∈ cs, csName c = n ∧ counterSatisfied pd c = true := by
  intro cs
  induction cs with
  | nil => intro es n; simp [runCounters]
  | cons c cs ih =>
    intro es n
    rw [runCounters, ih, stepCounter_snd_mem]
    constructor
    · rintro ((hn | ⟨he, hs⟩) | ⟨c2, hc2, he, hs⟩)
      · exact Or.inl hn
      · exact Or.inr ⟨c, List.mem_cons_self _ _, he, hs⟩
      · exact Or.inr ⟨c2, List.mem_cons_of_mem _ hc2, he, hs⟩
    · rintro (hn | ⟨c2, hc2, he, hs⟩)
      · exact Or.inl (Or.inl hn)
      · rcases List.mem_cons.mp hc2 with h | h
        · exact Or.inl (Or.inr ⟨h ▸ he, h ▸ hs⟩)
        · exact Or.inr ⟨c2, h, he, hs⟩

theorem runDaemons_snd_mem {counters : List CounterSpec} :
    ∀ (ds : List DaemonT) (es : List String × List String) (n : String),
    n ∈ (runDaemons counters ds es).2 ↔
      n ∈ es.2 ∨ ∃ d ∈ ds, d.running = true ∧ ∃ pd, d.response = some pd ∧
        ∃ c ∈ counters, csName c = n ∧ counterSatisfied pd c = true := by
  intro ds
  induction ds with
  | nil => intro es n; simp [runDaemons]
  | cons d ds ih =>
    intro es n
    rw [runDaemons, ih]
    have hstep :
        (n ∈ (if d.running then
                match d.response with
                | some pd => runCounters pd counters es
                | none => es
              else es).2) ↔
          n ∈ es.2 ∨ (d.running = true ∧ ∃ pd, d.response = some pd ∧
            ∃ c ∈ counters, csName c = n ∧ counterSatisfied pd c = true) := by
      by_cases hr : d.running
      · cases hresp : d.response with
        | none =>
          rw [if_pos hr]
          constructor
          · exact Or.inl
          · rintro (hn | ⟨-, pd2, hpd2, -⟩)
            · exact hn
            · cases hpd2
        | some pd =>
          rw [if_pos hr]
          constructor
          · intro hn
            rcases (runCounters_snd_mem counters es n).mp hn with hn2 | hs
            · exact Or.inl hn2
            · exact Or.inr ⟨hr, pd, rfl, hs⟩
          · rintro (hn | ⟨-, pd2, hpd2, hs⟩)
            · exact (runCounters_snd_mem counters es n).mpr (Or.inl hn)
            · cases Option.some.inj hpd2
              exact (runCounters_snd_mem counters es n).mpr (Or.inr hs)
      · rw [if_neg hr]
        constructor
        · exact Or.inl
        · rintro (hn | ⟨hrr, -⟩)
          · exact hn
          · exact absurd hrr hr
    rw [hstep]
    constructor
    · rintro ((hn | hd) | ⟨d2, hd2, hrest⟩)
      · exact Or.inl hn
      · exact Or.inr ⟨d, List.mem_cons_self _ _, hd⟩
      · exact Or.inr ⟨d2, List.mem_cons_of_mem _ hd2, hrest⟩
    · rintro (hn | ⟨d2, hd2, hrest⟩)
      · exact Or.inl (Or.inl hn)
      · rcases List.mem_cons.mp hd2 with h | h
        · exact Or.inl (Or.inr (h ▸ hrest))
        · exact Or.inr ⟨d2, h, hrest⟩

theorem mem_unseenOf {es : List String × List String} {n : String} :
    n ∈ unseenOf es ↔ n ∈ es.1 ∧ n ∉ es.2 := by
  unfold unseenOf
  rw [List.mem_filter, decide_eq_true_eq]

theorem endRaises_iff {dry : Bool} {counters : List CounterSpec}
    {daemons : List DaemonT} :
    endRaises dry counters daemons = true ↔
      dry = false ∧ ∃ n, n ∈ (processType counters daemons).1 ∧
        n ∉ (processType counters daemons).2 := by
  have hdef : endRaises dry counters daemons
      = (!dry && !(unseenOf (processType counters daemons)).isEmpty) := by
    cases dry <;> simp [endRaises]
  rw [hdef, Bool.and_eq_true, Bool.not_eq_true', Bool.not_eq_true']
  refine and_congr_right (fun _ => ?_)
  constructor
  · intro h
    have h2 : unseenOf (processType counters daemons) ≠ [] := by
      intro he
      rw [he] at h
      simp at h
    rcases List.exists_mem_of_ne_nil _ h2 with ⟨n, hn⟩
    exact ⟨n, mem_unseenOf.mp hn⟩
  · rintro ⟨n, hn⟩
    have h2 : n ∈ unseenOf (processType counters daemons) := mem_unseenOf.mpr hn
    cases he : unseenOf (processType counters daemons) with
    | nil => rw [he] at h2; cases h2
    | cons a t => rfl

/-- C2: for a configured daemon type, a counter name is marked seen iff at
least one responding daemon instance (running, nonempty admin-socket
response) has a counter specification of that name whose reported value is
at least the specification's minimum — `1` for a bare name, the `min` field
for a record; and the end phase raises for the type iff `dry_run` is false
and the set of expected names minus the seen names is nonempty after all
instances are processed. -/
theorem checkCounter_seen_and_raise
    (counters : List CounterSpec) (daemons : List DaemonT) (n : String) :
    (n ∈ (processType counters daemons).2 ↔
      ∃ d ∈ daemons, d.running = true ∧ ∃ pd, d.response = some pd ∧
        ∃ c ∈ counters, csName c = n ∧ counterSatisfied pd c = true)
    ∧ (∀ dry : Bool, endRaises dry counters daemons = true ↔
        dry = false ∧ ∃ m, m ∈ (processType counters daemons).1 ∧
          m ∉ (processType counters daemons).2)
    ∧ (∀ nm : String, csMin (CounterSpec.bare nm) = 1)
    ∧ (∀ nm : String, ∀ mv : Int, csMin (CounterSpec.record nm mv) = mv) := by
  refine ⟨?_, ?_, fun _ => rfl, fun _ _ => rfl⟩
  · rw [processType, runDaemons_snd_mem]
    simp
  · intro dry
    exact endRaises_iff

/-- C8: with `dry_run` true the end phase never raises, whatever was or was
not seen; an absent `dry_run` key defaults to false, in which case the
outcome is exactly that of an explicit `dry_run = false` run (unmet
counters fatal). -/
theorem checkCounter_dry_run
    (cfg : CCConfig) (counters : List CounterSpec) (daemons : List DaemonT) :
    (cfg.dry_run = some true → endRaisesCfg cfg counters daemons = false)
    ∧ (cfg.dry_run = none →
        endRaisesCfg cfg counters daemons = endRaises false counters daemons) := by
  constructor
  · intro h
    rw [endRaisesCfg, effectiveDryRun, h]
    rfl
  · intro h
    rw [endRaisesCfg, effectiveDryRun, h]
    rfl

/-- C8 witness: with one configured counter never reported by the single
responding daemon, the dry run does not raise while the defaulted
(absent-flag) run behaves like an explicit false flag, which does raise. -/
theorem checkCounter_dry_run_witness :
    endRaisesCfg ⟨some true⟩ [CounterSpec.bare ("mds.dir_split")]
      [⟨true, some (PerfVal.obj [])⟩] = false
    ∧ endRaisesCfg ⟨none⟩ [CounterSpec.bare ("mds.dir_split")]
      [⟨true, some (PerfVal.obj [])⟩]
      = endRaises false [CounterSpec.bare ("mds.dir_split")]
          [⟨true, some (PerfVal.obj [])⟩] :=
  ⟨(checkCounter_dry_run ⟨some true⟩ [CounterSpec.bare ("mds.dir_split")]
      [⟨true, some (PerfVal.obj [])⟩]).1 rfl,
   (checkCounter_dry_run ⟨none⟩ [CounterSpec.bare ("mds.dir_split")]
      [⟨true, some (PerfVal.obj [])⟩]).2 rfl⟩

/-- Helper for C10: skipped daemons leave the accumulator untouched. -/
theorem runDaemons_all_skipped {counters : List CounterSpec} :
    ∀ (ds : List DaemonT) (es : List String × List String),
    (∀ d ∈ ds, d.running = false ∨ d.response = none) →
    runDaemons counters ds es = es := by
  intro ds
  induction ds with
  | nil => intro es _; rfl
  | cons d ds ih =>
    intro es h
    rw [runDaemons]
    have hd := h d (List.mem_cons_self _ _)
    have hes2 :
        (if d.running then
          match d.response with
          | some pd => runCounters pd counters es
          | none => es
         else es) = es := by
      rcases hd with hr | hresp
      · rw [if_neg (by rw [hr]; exact Bool.false_ne_true)]
      · rw [hresp]
        split <;> rfl
    rw [hes2]
    exact ih es (fun d2 hd2 => h d2 (List.mem_cons_of_mem _ hd2))

/-- C10: if every daemon instance of the type is skipped (not running, or
empty admin-socket response), expected and seen both stay empty, and the
end phase does not raise for the type even with `dry_run` false. -/
theorem checkCounter_all_skipped_no_raise
    (counters : List CounterSpec) (daemons : List DaemonT) (dry : Bool)
    (h : ∀ d ∈ daemons, d.running = false ∨ d.response = none) :
    processType counters daemons = ([], [])
    ∧ endRaises dry counters daemons = false := by
  have hp : processType counters daemons = ([], []) :=
    runDaemons_all_skipped daemons ([], []) h
  refine ⟨hp, ?_⟩
  rw [endRaises, hp]
  cases dry <;> rfl

/-- C10 witness: one stopped daemon and one running daemon with an empty
admin-socket response, a configured counter, `dry_run` false: no raise. -/
theorem checkCounter_all_skipped_no_raise_witness :
    processType [CounterSpec.bare ("mds.dir_split")]
      [⟨false, some (PerfVal.obj [])⟩, ⟨true, none⟩] = ([], [])
    ∧ endRaises false [CounterSpec.bare ("mds.dir_split")]
      [⟨false, some (PerfVal.obj [])⟩, ⟨true, none⟩] = false :=
  checkCounter_all_skipped_no_raise
    [CounterSpec.bare ("mds.dir_split")]
    [⟨false, some (PerfVal.obj [])⟩, ⟨true, none⟩] false
    (by
      intro d hd
      rcases List.mem_cons.mp hd with h1 | h1
      · rw [h1]; exact Or.inl rfl
      · rw [List.mem_singleton] at h1
        rw [h1]; exact Or.inr rfl)

/-- C7: the filesystem-capability test runner always performs one positive
read check per (rewritten) fixture tuple, exactly as many as were recorded;
with permission level `rw` it then adds the positive write checks and no
error, with `r` the negative write checks and no error, and with any other
value it raises the fatal `RuntimeError` (so only the read checks ran). -/
theorem capTester_mds_cap_tests
    (test_set : List TestTuple) (perm : String) (mntpt : Option String) :
    ((run_mds_cap_tests test_set perm mntpt).1.take
        (effectiveTestSet test_set mntpt).length
      = (effectiveTestSet test_set mntpt).map
          (fun t => MdsCheck.posRead t.path t.data))
    ∧ (effectiveTestSet test_set mntpt).length = test_set.length
    ∧ (perm = "rw" →
        (run_mds_cap_tests test_set perm mntpt).1
          = (effectiveTestSet test_set mntpt).map
              (fun t => MdsCheck.posRead t.path t.data)
            ++ (effectiveTestSet test_set mntpt).map
              (fun t => MdsCheck.posWrite t.path t.data)
        ∧ (run_mds_cap_tests test_set perm mntpt).2 = none)
    ∧ (perm = "r" →
        (run_mds_cap_tests test_set perm mntpt).1
          = (effectiveTestSet test_set mntpt).map
              (fun t => MdsCheck.posRead t.path t.data)
            ++ (effectiveTestSet test_set mntpt).map
              (fun t => MdsCheck.negWrite t.path)
        ∧ (run_mds_cap_tests test_set perm mntpt).2 = none)
    ∧ (perm ≠ "rw" → perm ≠ "r" →
        (run_mds_cap_tests test_set perm mntpt).1
          = (effectiveTestSet test_set mntpt).map
              (fun t => MdsCheck.posRead t.path t.data)
        ∧ (run_mds_cap_tests test_set perm mntpt).2
          = some (permErrMsg perm)) := by
  have hlen : (effectiveTestSet test_set mntpt).length = test_set.length := by
    cases mntpt with
    | none => rfl
    | some m =>
      rw [effectiveTestSet]
      split
      · rfl
      · exact List.length_map _ _
  have hmaplen :
      ((effectiveTestSet test_set mntpt).map
        (fun t => MdsCheck.posRead t.path t.data)).length
        = (effectiveTestSet test_set mntpt).length := List.length_map _ _
  by_cases hrw : perm = "rw"
  · have heq : run_mds_cap_tests test_set perm mntpt
        = ((effectiveTestSet test_set mntpt).map
            (fun t => MdsCheck.posRead t.path t.data)
          ++ (effectiveTestSet test_set mntpt).map
            (fun t => MdsCheck.posWrite t.path t.data), none) := by
      rw [run_mds_cap_tests, if_pos hrw]
    refine ⟨?_, hlen, fun _ => ⟨by rw [heq], by rw [heq]⟩,
      fun hr => absurd (hrw.symm.trans hr) (by decide),
      fun hn _ => absurd hrw hn⟩
    · rw [heq, ← hmaplen, List.take_left]
  · by_cases hr : perm = "r"
    · have heq : run_mds_cap_tests test_set perm mntpt
          = ((effectiveTestSet test_set mntpt).map
              (fun t => MdsCheck.posRead t.path t.data)
            ++ (effectiveTestSet test_set mntpt).map
              (fun t => MdsCheck.negWrite t.path), none) := by
        rw [run_mds_cap_tests, if_neg hrw, if_pos hr]
      refine ⟨?_, hlen, fun h => absurd h hrw,
        fun _ => ⟨by rw [heq], by rw [heq]⟩, fun _ hn => absurd hr hn⟩
      rw [heq, ← hmaplen, List.take_left]
    · have heq : run_mds_cap_tests test_set perm mntpt
          = ((effectiveTestSet test_set mntpt).map
              (fun t => MdsCheck.posRead t.path t.data),
             some (permErrMsg perm)) := by
        rw [run_mds_cap_tests, if_neg hrw, if_neg hr]
      refine ⟨?_, hlen, fun h => absurd h hrw, fun h => absurd h hr,
        fun _ _ => ⟨by rw [heq], by rw [heq]⟩⟩
      rw [heq, ← hmaplen, List.take_length]

/-- C7 witness: a one-tuple test set with permission level `rw` runs with
no error. -/
theorem capTester_mds_cap_tests_witness :
    (run_mds_cap_tests [⟨"/mnt/cephfs_x/testdir/testfile", "data"⟩]
      "rw" none).2 = none :=
  ((capTester_mds_cap_tests [⟨"/mnt/cephfs_x/testdir/testfile", "data"⟩]
    "rw" none).2.2.1 rfl).2

/-- Helper for C9: joining a non-absolute component keeps the left part as
a prefix. -/
theorem os_path_join2_keeps_left {a b : List Char} (hb : b.head? ≠ some '/') :
    a <+: os_path_join2 a b := by
  rw [os_path_join2, if_neg hb]
  split_ifs
  · exact List.prefix_append a b
  · exact List.prefix_append a ('/' :: b)

/-- Helper for C9: a sub-path that does not begin with two separators
normalizes to a non-absolute path. -/
theorem normalize_testpath_not_absolute {tp : List Char}
    (h2 : tp.take 2 ≠ ['/', '/']) :
    (normalize_testpath tp).head? ≠ some '/' := by
  match tp with
  | [] => intro h; cases h
  | c :: rest =>
    by_cases hc : c = '/'
    · subst hc
      match rest with
      | [] => intro h; cases h
      | d :: r2 =>
        have hd : d ≠ '/' := by
          intro hdeq
          exact h2 (by rw [hdeq]; rfl)
        rw [normalize_testpath]
        simp only [if_pos rfl]
        rw [if_neg (by
          intro he
          exact hd (List.head_eq_of_cons_eq he))]
        intro h
        exact hd (Option.some.inj h)
    · rw [normalize_testpath]
      simp only [if_neg hc]
      rw [if_neg (by
        intro he
        exact hc (List.head_eq_of_cons_eq he))]
      intro h
      exact hc (Option.some.inj h)

/-- C9 (counterexample): for the sub-path `//dir1` the normalization
removes only the first separator, the normalized sub-path is absolute, and
`os.path.join` then discards the mount's host-side root: the directory
path is `/dir1/testdir`, which does not retain the root
`/mnt/cephfs_x`. -/
theorem write_test_files_counterexample :
    write_test_files_dirpath ("/mnt/cephfs_x").data ("//dir1").data
      = "/dir1/testdir".data
    ∧ ¬ ("/mnt/cephfs_x".data <+:
        write_test_files_dirpath ("/mnt/cephfs_x").data ("//dir1").data) := by
  constructor
  · decide
  · decide

/-- C9 (amended): normalization strips exactly one leading separator when
present and maps a bare separator (also the post-strip bare separator) to
the empty string; for every sub-path that does not begin with two
separators the normalized sub-path is not absolute and the resulting
directory path — the join of the mount's host-side root, the normalized
sub-path and `testdir` — retains the root component; a sub-path beginning
with `//` normalizes to an absolute path and the join then discards the
root. -/
theorem write_test_files_amended :
    (∀ rest : List Char,
      normalize_testpath ('/' :: rest) = if rest = ['/'] then [] else rest)
    ∧ normalize_testpath ['/'] = []
    ∧ ∀ root tp : List Char, root ≠ [] → tp.take 2 ≠ ['/', '/'] →
        root <+: write_test_files_dirpath root tp := by
  refine ⟨fun rest => by rw [normalize_testpath]; simp, by decide, ?_⟩
  intro root tp _ h2
  have hnp := normalize_testpath_not_absolute h2
  have h1 : root <+: os_path_join2 root (normalize_testpath tp) :=
    os_path_join2_keeps_left hnp
  have hth : ("testdir".data).head? ≠ some '/' := by decide
  exact h1.trans (os_path_join2_keeps_left hth)

/-- C9 witness: for the recorded sub-path `/dir1/dir2` the root
`/mnt/cephfs_x` is retained in the directory path. -/
theorem write_test_files_amended_witness :
    "/mnt/cephfs_x".data <+:
      write_test_files_dirpath ("/mnt/cephfs_x").data ("/dir1/dir2").data :=
  write_test_files_amended.2.2 ("/mnt/cephfs_x").data ("/dir1/dir2").data
    (by decide) (by decide)

/-- C5: the user-creation step's assertion `assert(ret == 0 or
errno.EEXIST)` passes for every exit status — in particular for status 1,
which is neither 0 nor EEXIST — because the nonzero integer `errno.EEXIST`
is truthy; the run therefore never aborts here, contradicting the claimed
abort on other statuses (the intended check is `ret == errno.EEXIST`). -/
theorem user_create_assert_always_passes :
    user_create_assert_passes 1 = true
    ∧ ∀ ret : Int, user_create_assert_passes ret = true := by
  refine ⟨by decide, ?_⟩
  intro ret
  by_cases h : ret = 0
  · simp [user_create_assert_passes, pyOr, pyTruthy, h]
  · simp [user_create_assert_passes, pyOr, pyTruthy, h, EEXIST]

/-- C6 (counterexample): `mock_bad_firewalld` has no `return` statement,
so the constructor call evaluates to `None` rather than the stand-in
object. -/
theorem mock_bad_firewalld_counterexample : mock_bad_firewalld = none := rfl

/-- C6 (amended): the fake-failing-firewall-controller constructor builds
a stand-in whose service-enable, rule-apply and port-open operations each
unconditionally raise `Exception('Called bad firewalld')` when called, but
the function returns `None` (the stand-in is discarded for want of a
`return` statement). -/
theorem mock_bad_firewalld_amended :
    bad_firewalld_stand_in.enable_service_for ()
       = Except.error ("Called bad firewalld")
    ∧ bad_firewalld_stand_in.apply_rules ()
       = Except.error ("Called bad firewalld")
    ∧ bad_firewalld_stand_in.open_ports ()
       = Except.error ("Called bad firewalld")
    ∧ mock_bad_firewalld = none :=
  ⟨rfl, rfl, rfl, rfl⟩

/-- Helper for C3: walking a block of `EBUSY` retry results sleeps 30
seconds after each and stops at the first `0`, proceeding to the final
checks. -/
theorem retry_reshard_ebusy_then_zero :
    ∀ (pre post : List Int), (∀ r ∈ pre, r = EBUSY) →
    retry_reshard (pre ++ 0 :: post)
      = (pre.flatMap (fun r => [RAct.reshardRetry r, RAct.sleep30])
          ++ [RAct.reshardRetry 0], some true) := by
  intro pre
  induction pre with
  | nil =>
    intro post _
    rw [List.nil_append, retry_reshard]
    rw [if_neg (by decide : ¬ (0 : Int) = EBUSY), if_pos rfl]
    rfl
  | cons r pre ih =>
    intro post h
    have hr : r = EBUSY := h r (List.mem_cons_self _ _)
    subst hr
    rw [List.cons_append, retry_reshard, if_pos rfl,
      ih post (fun r2 hr2 => h r2 (List.mem_cons_of_mem _ hr2))]
    rfl

/-- Helper for C3: the retry loop reaches the final checks only when the
result stream is a block of `EBUSY` followed by a `0`. -/
theorem retry_reshard_success_split :
    ∀ rets : List Int, (retry_reshard rets).2 = some true →
    ∃ pre post, rets = pre ++ 0 :: post ∧ ∀ r ∈ pre, r = EBUSY := by
  intro rets
  induction rets with
  | nil => intro h; cases h
  | cons r rest ih =>
    intro h
    rw [retry_reshard] at h
    by_cases hb : r = EBUSY
    · rw [if_pos hb] at h
      rcases ih h with ⟨pre, post, hsplit, hall⟩
      refine ⟨r :: pre, post, by rw [hsplit]; rfl, ?_⟩
      intro r2 hr2
      rcases List.mem_cons.mp hr2 with h2 | h2
      · exact h2.trans hb
      · exact hall r2 h2
    · rw [if_neg hb] at h
      by_cases h0 : r = 0
      · exact ⟨[], rest, by rw [h0]; rfl, by intro r2 hr2; cases hr2⟩
      · rw [if_neg h0] at h
        cases h

/-- C3: with any injected fault other than error code ECANCELED, the
scenario requires the fault-injected reshard to exit nonzero and non-EBUSY
(each other exit fails the `assert`); it then asserts the shard count is
unchanged, deletes one object (a failure there propagates as an error),
asserts the ACL grants equal the pre-scenario grants, and then retries
without fault injection, sleeping 30 seconds after every EBUSY exit, until
an attempt exits 0 and the final checks run; reaching the final checks
requires exactly such an EBUSY-block-then-0 result stream. -/
theorem reshard_generic_fault (env : REnv) (old : Int) (grants : List String)
    (hec : env.error_code ≠ some ECANCELED) :
    ((env.faultRet = 0 ∨ env.faultRet = EBUSY) →
      test_bucket_reshard env old grants
        = ([RAct.reshardFault env.faultRet], ROutcome.assertFailed ("fault-ret")))
    ∧ (env.faultRet ≠ 0 → env.faultRet ≠ EBUSY →
        (env.shardsAfterFault ≠ old →
          test_bucket_reshard env old grants
            = ([RAct.reshardFault env.faultRet, RAct.statShards],
               ROutcome.assertFailed ("shard-count")))
        ∧ (env.shardsAfterFault = old →
            RAct.deleteObj ∈ (test_bucket_reshard env old grants).1
            ∧ (env.deleteOk = false →
                test_bucket_reshard env old grants
                  = ([RAct.reshardFault env.faultRet, RAct.statShards,
                      RAct.deleteObj], ROutcome.errored ("delete")))
            ∧ (env.deleteOk = true → env.grantsAfterCancel ≠ grants →
                test_bucket_reshard env old grants
                  = ([RAct.reshardFault env.faultRet, RAct.statShards,
                      RAct.deleteObj, RAct.aclCheck],
                     ROutcome.assertFailed ("grants-cancel")))
            ∧ (env.deleteOk = true → env.grantsAfterCancel = grants →
                (∀ pre post, env.retryRets = pre ++ 0 :: post →
                  (∀ r ∈ pre, r = EBUSY) →
                  test_bucket_reshard env old grants
                    = (RAct.reshardFault env.faultRet :: RAct.statShards ::
                        RAct.deleteObj :: RAct.aclCheck ::
                        (pre.flatMap (fun r => [RAct.reshardRetry r, RAct.sleep30])
                          ++ [RAct.reshardRetry 0]
                          ++ (finalChecks env (old + 1) grants).1),
                       (finalChecks env (old + 1) grants).2))
                ∧ ((retry_reshard env.retryRets).2 = some true →
                    ∃ pre post, env.retryRets = pre ++ 0 :: post
                      ∧ ∀ r ∈ pre, r = EBUSY)))) := by
  constructor
  · intro hor
    rw [test_bucket_reshard, if_neg hec,
      if_neg (by
        rintro ⟨h0, hb⟩
        rcases hor with h | h
        · exact h0 h
        · exact hb h)]
  · intro h0 hb
    have hcond : env.faultRet ≠ 0 ∧ env.faultRet ≠ EBUSY := ⟨h0, hb⟩
    constructor
    · intro hsc
      rw [test_bucket_reshard, if_neg hec, if_pos hcond, if_neg hsc]
    · intro hsc
      refine ⟨?_, ?_, ?_, ?_⟩
      · rw [test_bucket_reshard, if_neg hec, if_pos hcond, if_pos hsc]
        by_cases hdel : env.deleteOk
        · rw [if_pos hdel]
          by_cases hg : env.grantsAfterCancel = grants
          · rw [if_pos hg]
            rcases hmatch : (retry_reshard env.retryRets).2 with - | b
            · simp [hmatch]
            · cases b <;> simp [hmatch]
          · rw [if_neg hg]
            simp
        · rw [if_neg hdel]
          simp
      · intro hdel
        rw [test_bucket_reshard, if_neg hec, if_pos hcond, if_pos hsc,
          if_neg (by rw [hdel]; exact Bool.false_ne_true)]
      · intro hdel hg
        rw [test_bucket_reshard, if_neg hec, if_pos hcond, if_pos hsc,
          if_pos (by rw [hdel]), if_neg hg]
      · intro hdel hg
        constructor
        · intro pre post hsplit hall
          rw [test_bucket_reshard, if_neg hec, if_pos hcond, if_pos hsc,
            if_pos (by rw [hdel]), if_pos hg, hsplit,
            retry_reshard_ebusy_then_zero pre post hall]
        · exact retry_reshard_success_split env.retryRets

/-- C3 witness: an EIO-style fault (exit 5, no injected error code) with
unchanged shard count, a successful delete, unchanged grants, one EBUSY
retry then a clean retry, and passing final checks. -/
theorem reshard_generic_fault_witness :
    test_bucket_reshard
      ⟨none, 5, 3, true, ["g"], [EBUSY, 0], 4, ["g"]⟩ 3 ["g"]
      = (RAct.reshardFault 5 :: RAct.statShards ::
          RAct.deleteObj :: RAct.aclCheck ::
          (([EBUSY] : List Int).flatMap
              (fun r => [RAct.reshardRetry r, RAct.sleep30])
            ++ [RAct.reshardRetry 0]
            ++ (finalChecks ⟨none, 5, 3, true, ["g"], [EBUSY, 0], 4, ["g"]⟩
                  (3 + 1) ["g"]).1),
         (finalChecks ⟨none, 5, 3, true, ["g"], [EBUSY, 0], 4, ["g"]⟩
            (3 + 1) ["g"]).2) :=
  (((((reshard_generic_fault
      ⟨none, 5, 3, true, ["g"], [EBUSY, 0], 4, ["g"]⟩ 3 ["g"]
      (by decide)).2 (by decide) (by decide)).2 rfl).2.2.2 rfl rfl).1
    [EBUSY] [] rfl (by intro r hr; rw [List.mem_singleton] at hr; exact hr))

/-- C4: with injected error code ECANCELED, the scenario asserts that the
single fault-injected invocation itself exits 0 (a nonzero exit fails the
assert); when it does exit 0 the run goes straight to the final checks —
the trace contains no retry invocation and no sleep — and passes exactly
when the shard count equals the requested target `old + 1` and the ACL
grants are unchanged. -/
theorem reshard_ecanceled (env : REnv) (old : Int) (grants : List String)
    (hec : env.error_code = some ECANCELED) :
    (env.faultRet ≠ 0 →
      test_bucket_reshard env old grants
        = ([RAct.reshardFault env.faultRet],
           ROutcome.assertFailed ("ecanceled-ret")))
    ∧ (env.faultRet = 0 →
        test_bucket_reshard env old grants
          = (RAct.reshardFault env.faultRet ::
              (finalChecks env (old + 1) grants).1,
             (finalChecks env (old + 1) grants).2)
        ∧ (∀ a ∈ (test_bucket_reshard env old grants).1,
            (∀ r : Int, a ≠ RAct.reshardRetry r) ∧ a ≠ RAct.sleep30)
        ∧ ((test_bucket_reshard env old grants).2 = ROutcome.passed ↔
            env.finalShards = old + 1 ∧ env.grantsAfterCommit = grants)) := by
  constructor
  · intro h0
    rw [test_bucket_reshard, if_pos hec, if_neg h0]
  · intro h0
    have heq : test_bucket_reshard env old grants
        = (RAct.reshardFault env.faultRet ::
            (finalChecks env (old + 1) grants).1,
           (finalChecks env (old + 1) grants).2) := by
      rw [test_bucket_reshard, if_pos hec, if_pos h0]
    refine ⟨heq, ?_, ?_⟩
    · intro a ha
      rw [heq] at ha
      rw [finalChecks] at ha
      split_ifs at ha with h1 h2
      · simp only [List.mem_cons, List.mem_singleton] at ha
        rcases ha with rfl | rfl | rfl | h
        · exact ⟨(fun r h => nomatch h), (fun h => nomatch h)⟩
        · exact ⟨(fun r h => nomatch h), (fun h => nomatch h)⟩
        · exact ⟨(fun r h => nomatch h), (fun h => nomatch h)⟩
        · cases h
      · simp only [List.mem_cons, List.mem_singleton] at ha
        rcases ha with rfl | rfl | rfl | h
        · exact ⟨(fun r h => nomatch h), (fun h => nomatch h)⟩
        · exact ⟨(fun r h => nomatch h), (fun h => nomatch h)⟩
        · exact ⟨(fun r h => nomatch h), (fun h => nomatch h)⟩
        · cases h
      · simp only [List.mem_cons, List.mem_singleton] at ha
        rcases ha with rfl | rfl | h
        · exact ⟨(fun r h => nomatch h), (fun h => nomatch h)⟩
        · exact ⟨(fun r h => nomatch h), (fun h => nomatch h)⟩
        · cases h
    · rw [heq, finalChecks]
      split_ifs with h1 h2
      · simp [h1, h2]
      · constructor
        · intro h; exact nomatch h
        · rintro ⟨-, hg⟩; exact absurd hg h2
      · constructor
        · intro h; exact nomatch h
        · rintro ⟨hf, -⟩; exact absurd hf h1

/-- C4 witness: error code ECANCELED, exit status 0, shard count reaching
the target and unchanged grants: the scenario passes with no retry. -/
theorem reshard_ecanceled_witness :
    test_bucket_reshard
      ⟨some ECANCELED, 0, 3, true, ["g"], [], 4, ["g"]⟩ 3 ["g"]
      = (RAct.reshardFault 0 ::
          (finalChecks ⟨some ECANCELED, 0, 3, true, ["g"], [], 4, ["g"]⟩
            (3 + 1) ["g"]).1,
         (finalChecks ⟨some ECANCELED, 0, 3, true, ["g"], [], 4, ["g"]⟩
            (3 + 1) ["g"]).2) :=
  ((reshard_ecanceled
      ⟨some ECANCELED, 0, 3, true, ["g"], [], 4, ["g"]⟩ 3 ["g"] rfl).2 rfl).1

end CephSpec
